import Mathlib

/-!
Shallow embedding of the encrypted-keystore / mnemonic subsystem of the
cfxdevkit/deno-cli repository, with proofs about the claims of its
specification.

The embedding covers:
* the keystore data model (`src/src/types.ts`),
* `KeystoreManager` state and accessors (keystore_manager.ts),
* `MnemonicManager.deleteMnemonic` (`src/src/wallet/mnemonic_manager.ts`),
* `Wallet.deleteMnemonic` and the key-derivation wrappers (wallet.ts),
* `EncryptionService.encryptMnemonic` / `decryptMnemonic`
  (encryption_service.ts), with the external Web-Crypto primitives
  (PBKDF2, AES-GCM) and text codecs as explicit parameters and a faithful
  executable model of `btoa`/`atob` (standard base64),
* `coreClient.faucet` / `sendTransaction` (`src/src/clients/cive.ts`)
  with the external RPC/address libraries as explicit parameters.

Interactive prompts are modelled by passing the prompted values as
arguments (a password stream `Nat → String`, a selected index, a
confirmation flag), and file persistence by a `persisted` field recording
the last document written by `writeKeystore`.
-/

namespace DenoCli

/-! ## Data model (src/src/types.ts) -/

/-- `KeystoreEntry.type`: `'plaintext' | 'encoded'`. -/
inductive EntryKind
  | plaintext
  | encoded
deriving DecidableEq

/-- `KeystoreEntry = { type, label, mnemonic }` (types.ts). -/
structure KeystoreEntry where
  kind : EntryKind
  label : String
  mnemonic : String
deriving DecidableEq

/-- `KeystoreFile = { keystore, activeIndex: number | null }` (types.ts);
the JSON document written by `writeKeystore`. -/
structure KeystoreFile where
  keystore : List KeystoreEntry
  activeIndex : Option Int
deriving DecidableEq

/-- In-memory state of `KeystoreManager` (keystore_manager.ts): the
`keystore` array, the `activeIndex` field (`number | null`), and the last
document persisted by `writeKeystore` (`none` if never written). -/
structure KeystoreManager where
  keystore : List KeystoreEntry
  activeIndex : Option Int
  persisted : Option KeystoreFile
deriving DecidableEq

/-- `KeystoreManager.getActiveIndex(): return this.activeIndex || 0`.
JavaScript `||` yields the right operand when the left is falsy: `null`
and `0` both give `0`; every other number (negatives included) is truthy
and returned as-is. -/
def getActiveIndex (s : KeystoreManager) : Int :=
  match s.activeIndex with
  | none => 0
  | some i => if i = 0 then 0 else i

/-- `KeystoreManager.setActiveIndex(index)`. -/
def setActiveIndex (s : KeystoreManager) (index : Option Int) : KeystoreManager :=
  { s with activeIndex := index }

/-- `KeystoreManager.writeKeystore()`: persists
`{ keystore: this.keystore, activeIndex: this.activeIndex }`. -/
def writeKeystore (s : KeystoreManager) : KeystoreManager :=
  { s with persisted := some { keystore := s.keystore, activeIndex := s.activeIndex } }

/-! ## MnemonicManager.deleteMnemonic (src/src/wallet/mnemonic_manager.ts:74-100) -/

/-- The two errors `deleteMnemonic` throws before mutating anything. -/
inductive DeleteError
  | invalidIndex
  | cannotDeleteDefault
deriving DecidableEq

/-- `MnemonicManager.deleteMnemonic(index)`. Returns the state after the
call together with the thrown error, if any; a thrown error leaves the
state untouched because both throws precede the `splice`. On success the
entry is removed positionally (`splice(index, 1)`), the active index is
renormalized (reset to 0 when the active entry was deleted, decremented
when it sat after the deletion point), and the document is persisted. -/
def deleteMnemonic (s : KeystoreManager) (index : Int) :
    KeystoreManager × Option DeleteError :=
  if index < 0 ∨ (s.keystore.length : Int) ≤ index then
    (s, some .invalidIndex)
  else if index = 0 then
    (s, some .cannotDeleteDefault)
  else
    let s1 : KeystoreManager := { s with keystore := s.keystore.eraseIdx index.toNat }
    let a := getActiveIndex s
    let s2 :=
      if a = index then setActiveIndex s1 (some 0)
      else if index < a then setActiveIndex s1 (some (a - 1))
      else s1
    (writeKeystore s2, none)

/-! ## Wallet.deleteMnemonic (wallet.ts, part_008:310-340) -/

/-- In-memory state of `Wallet`: its `KeystoreManager` and the cached
active mnemonic (`private mnemonic?: string`). -/
structure Wallet where
  km : KeystoreManager
  mnemonic : Option String
deriving DecidableEq

/-- Errors surfaced by `Wallet.deleteMnemonic`. -/
inductive WalletDeleteError
  | noAdditionalMnemonics
  | managerError (e : DeleteError)
deriving DecidableEq

/-- `Wallet.deleteMnemonic()`. The interactively chosen entry index and the
confirmation answer are passed as arguments. After a confirmed, successful
`MnemonicManager.deleteMnemonic`, the source clears the cache only when
`Number(selectedIndex) === this.keystoreManager.getActiveIndex()` — a
comparison against the already-renormalized active index. -/
def walletDeleteMnemonic (w : Wallet) (selectedIndex : Int) (confirmYes : Bool) :
    Wallet × Option WalletDeleteError :=
  if (w.km.keystore.length : Int) ≤ 1 then
    (w, some .noAdditionalMnemonics)
  else if confirmYes then
    match deleteMnemonic w.km selectedIndex with
    | (km1, some e) => ({ w with km := km1 }, some (.managerError e))
    | (km1, none) =>
      (if selectedIndex = getActiveIndex km1 then { km := km1, mnemonic := none }
       else { km := km1, mnemonic := w.mnemonic }, none)
  else
    (w, none)

/-- The default entry created by `initializeKeystore` (wallet.ts). -/
def defaultEntry : KeystoreEntry :=
  { kind := .plaintext
    label := "Default Keystore"
    mnemonic := "test test test test test test test test test test test junk" }

/-- A second, user-added plaintext entry (as in the repository's tests). -/
def secondEntry : KeystoreEntry :=
  { kind := .plaintext, label := "Second Mnemonic", mnemonic := "test2 test2 test2" }

/-- A third entry, used for the three-entry renormalization scenario. -/
def thirdEntry : KeystoreEntry :=
  { kind := .plaintext, label := "Third Mnemonic", mnemonic := "test3 test3 test3" }

/-! ## Theorems: keystore claims -/

/-- C2. Active-index renormalization: for a keystore whose `activeIndex`
field holds `a`, a `deleteMnemonic i` call with `0 < i < entries.length`
succeeds, removes the entry at position `i` (positional `splice`), sets
the active index to `0` when `a = i`, to `a - 1` when `a > i`, and leaves
it at `a` when `a < i`; the mutated document is persisted. -/
theorem deleteMnemonic_renormalizes (s : KeystoreManager) (i a : Int)
    (hA : s.activeIndex = some a) (h0 : 0 < i) (hlen : i < (s.keystore.length : Int)) :
    deleteMnemonic s i =
      ({ keystore := s.keystore.eraseIdx i.toNat
         activeIndex := some (if a = i then 0 else if i < a then a - 1 else a)
         persisted := some
           { keystore := s.keystore.eraseIdx i.toNat
             activeIndex := some (if a = i then 0 else if i < a then a - 1 else a) } },
       none) := by
  have hga : getActiveIndex s = a := by
    simp only [getActiveIndex, hA]
    split <;> omega
  unfold deleteMnemonic
  rw [if_neg (by omega)]
  rw [if_neg (by omega)]
  simp only [hga, setActiveIndex, writeKeystore]
  by_cases h1 : a = i
  · simp [h1, hA]
  · rw [if_neg h1]
    by_cases h2 : i < a
    · simp [h2, h1, hA]
    · simp [h2, h1, hA]

/-- C2 witness: entries `[A, B, C]` with `activeIndex = 2`; deleting
index 1 yields `[A, C]` with `activeIndex = 1`, persisted. -/
theorem deleteMnemonic_renormalizes_witness :
    deleteMnemonic
        { keystore := [defaultEntry, secondEntry, thirdEntry]
          activeIndex := some 2, persisted := none } 1 =
      ({ keystore := [defaultEntry, thirdEntry]
         activeIndex := some 1
         persisted := some
           { keystore := [defaultEntry, thirdEntry], activeIndex := some 1 } },
       none) := by
  have h := deleteMnemonic_renormalizes
    { keystore := [defaultEntry, secondEntry, thirdEntry]
      activeIndex := some 2, persisted := none } 1 2 rfl (by decide) (by decide)
  simpa using h

/-- C3. `deleteMnemonic` error conditions and atomicity: on a keystore
with at least one entry, the call fails with `InvalidIndex` exactly when
the index is out of `[0, entries.length)`, `deleteMnemonic 0` fails with
`CannotDeleteDefault`, and every failing call returns the state (entries,
active index, persisted document) unchanged. -/
theorem deleteMnemonic_errors (s : KeystoreManager) (i : Int)
    (hne : s.keystore ≠ []) :
    ((deleteMnemonic s i).2 = some .invalidIndex ↔
        i < 0 ∨ (s.keystore.length : Int) ≤ i)
    ∧ (deleteMnemonic s 0).2 = some .cannotDeleteDefault
    ∧ (∀ e, (deleteMnemonic s i).2 = some e → (deleteMnemonic s i).1 = s) := by
  have hpos : 0 < s.keystore.length := List.length_pos.mpr hne
  refine ⟨?_, ?_, ?_⟩
  · unfold deleteMnemonic
    by_cases h : i < 0 ∨ (s.keystore.length : Int) ≤ i
    · simp [h]
    · rw [if_neg h]
      by_cases h0 : i = 0 <;> simp [h0, h, hne]
  · unfold deleteMnemonic
    rw [if_neg (by push_neg; omega)]
    simp
  · intro e
    unfold deleteMnemonic
    by_cases h : i < 0 ∨ (s.keystore.length : Int) ≤ i
    · simp [h]
    · rw [if_neg h]
      by_cases h0 : i = 0 <;> simp [h0, hne]

/-- C3 witness: on the one-entry default keystore, `deleteMnemonic (-1)`
and `deleteMnemonic 1` fail with `InvalidIndex`, `deleteMnemonic 0` fails
with `CannotDeleteDefault`, and each failure leaves the state unchanged. -/
theorem deleteMnemonic_errors_witness :
    (deleteMnemonic
        { keystore := [defaultEntry], activeIndex := some 0, persisted := none }
        (-1)).2 = some .invalidIndex
    ∧ (deleteMnemonic
        { keystore := [defaultEntry], activeIndex := some 0, persisted := none }
        1).2 = some .invalidIndex
    ∧ (deleteMnemonic
        { keystore := [defaultEntry], activeIndex := some 0, persisted := none }
        0).2 = some .cannotDeleteDefault
    ∧ (deleteMnemonic
        { keystore := [defaultEntry], activeIndex := some 0, persisted := none }
        (-1)).1 =
      { keystore := [defaultEntry], activeIndex := some 0, persisted := none } := by
  refine ⟨?_, ?_, ?_, ?_⟩
  · exact ((deleteMnemonic_errors _ (-1) (by decide)).1).mpr (by decide)
  · exact ((deleteMnemonic_errors _ 1 (by decide)).1).mpr (by decide)
  · exact (deleteMnemonic_errors _ 1 (by decide)).2.1
  · exact (deleteMnemonic_errors _ (-1) (by decide)).2.2 .invalidIndex
      (((deleteMnemonic_errors _ (-1) (by decide)).1).mpr (by decide))

/-- C9 counterexample: the claim says `getActiveIndex` returns 0 whenever
the stored field is null or negative, but for the stored value `-1` the
accessor returns `-1` (JavaScript `-1 || 0` is `-1`, since `-1` is
truthy). -/
theorem getActiveIndex_negative_not_normalized :
    getActiveIndex { keystore := [], activeIndex := some (-1), persisted := none }
      = -1
    ∧ getActiveIndex { keystore := [], activeIndex := some (-1), persisted := none }
      ≠ 0 := by
  decide

/-- C9 amended: `getActiveIndex` returns 0 exactly when the stored field
is unset (`null`) or already 0; any other stored value — negative values
included — is returned unchanged. -/
theorem getActiveIndex_normalization (ks : List KeystoreEntry)
    (p : Option KeystoreFile) (v : Option Int) :
    (getActiveIndex { keystore := ks, activeIndex := v, persisted := p } = 0 ↔
        v = none ∨ v = some 0)
    ∧ (∀ i : Int, v = some i → i ≠ 0 →
        getActiveIndex { keystore := ks, activeIndex := v, persisted := p } = i) := by
  constructor
  · cases v with
    | none => simp [getActiveIndex]
    | some i =>
      simp only [getActiveIndex]
      by_cases h : i = 0 <;> simp [h]
  · intro i hv hi
    subst hv
    simp [getActiveIndex, hi]

/-- C9 amended, witness: evaluated at stored values `null`, `0` and `-1`. -/
theorem getActiveIndex_normalization_witness :
    (getActiveIndex { keystore := [], activeIndex := none, persisted := none } = 0 ↔
        (none : Option Int) = none ∨ (none : Option Int) = some 0)
    ∧ getActiveIndex { keystore := [], activeIndex := some (-1), persisted := none }
        = -1 := by
  refine ⟨(getActiveIndex_normalization [] none none).1, ?_⟩
  exact (getActiveIndex_normalization [] none (some (-1))).2 (-1) rfl (by decide)

/-- C6 (code bug evidence): keystore `[default, second]` with the second
entry active (`activeIndex = 1`) and a cached mnemonic; the user selects
index 1 — the active entry — and confirms. The deletion succeeds and
renormalizes the active index to 0, yet the cached mnemonic is NOT
cleared: the source compares `selectedIndex` with the active index
re-read after the deletion already reset it to 0, so the guard
`1 = 0` is false, contradicting the source's own comment
"Reset the cached mnemonic if we deleted the active one". -/
theorem walletDeleteMnemonic_cache_not_cleared :
    getActiveIndex
        { keystore := [defaultEntry, secondEntry], activeIndex := some 1,
          persisted := none } = 1
    ∧ walletDeleteMnemonic
        { km := { keystore := [defaultEntry, secondEntry], activeIndex := some 1,
                  persisted := none }
          mnemonic := some "test2 test2 test2" } 1 true =
      ({ km := { keystore := [defaultEntry]
                 activeIndex := some 0
                 persisted := some
                   { keystore := [defaultEntry], activeIndex := some 0 } }
         mnemonic := some "test2 test2 test2" },
       none) := by
  decide

/-! ## Base64 (model of `btoa`/`atob` over byte lists)

`encryptMnemonic` ends with `btoa(String.fromCharCode(...bytes))` and
`decryptMnemonic` starts with `Uint8Array.from(atob(s), c => c.charCodeAt(0))`;
the composition is base64 over the byte array. `btoa` emits canonical
padded base64; `atob` implements the WHATWG forgiving-base64 decode:
strip ASCII whitespace, strip one or two trailing `=` when the length is
a multiple of four, fail on a remaining length of 1 mod 4 or on any
character outside the alphabet, and decode 6-bit groups, discarding the
dangling bits of a final partial group. Both are modelled executably
below, and decoding is proved to invert encoding. -/

/-- The base64 alphabet: value (< 64) to character. -/
def b64Char (n : Nat) : Char :=
  if n < 26 then Char.ofNat (65 + n)
  else if n < 52 then Char.ofNat (97 + (n - 26))
  else if n < 62 then Char.ofNat (48 + (n - 52))
  else if n = 62 then '+'
  else '/'

/-- Inverse of the base64 alphabet; `none` on characters outside it
(on which `atob` throws; `=` is handled by `atobStripPadding`). -/
def b64CharDecode (c : Char) : Option Nat :=
  if 65 ≤ c.toNat ∧ c.toNat ≤ 90 then some (c.toNat - 65)
  else if 97 ≤ c.toNat ∧ c.toNat ≤ 122 then some (c.toNat - 71)
  else if 48 ≤ c.toNat ∧ c.toNat ≤ 57 then some (c.toNat + 4)
  else if c = '+' then some 62
  else if c = '/' then some 63
  else none

/-- `btoa`: base64-encode a byte list, three bytes to four characters,
with `=` padding on the final partial block. -/
def b64EncodeList : List Nat → List Char
  | [] => []
  | [a] => [b64Char (a / 4), b64Char (a % 4 * 16), '=', '=']
  | [a, b] => [b64Char (a / 4), b64Char (a % 4 * 16 + b / 16), b64Char (b % 16 * 4), '=']
  | a :: b :: c :: rest =>
    b64Char (a / 4) :: b64Char (a % 4 * 16 + b / 16) ::
      b64Char (b % 16 * 4 + c / 64) :: b64Char (c % 64) :: b64EncodeList rest

/-- ASCII whitespace, which forgiving-base64 strips before decoding:
TAB, LF, FF, CR and SPACE. -/
def isB64Whitespace (c : Char) : Bool :=
  c.toNat == 9 || c.toNat == 10 || c.toNat == 12 || c.toNat == 13 || c.toNat == 32

/-- Forgiving-base64 step 2: when the (whitespace-stripped) data has a
length that is a multiple of four, remove one or two trailing `=`. -/
def atobStripPadding (data : List Char) : List Char :=
  if data.length % 4 = 0 then
    if data.getLast? = some '=' then
      if data.dropLast.getLast? = some '=' then data.dropLast.dropLast
      else data.dropLast
    else data
  else data

/-- Forgiving-base64 group decoding: four characters yield three bytes; a
final group of two or three characters yields one or two bytes, its
dangling bits discarded; any character outside the alphabet fails, and a
final group of one character cannot occur (length 1 mod 4 is rejected
beforehand) and fails. -/
def b64DecodeGroups : List Char → Option (List Nat)
  | [] => some []
  | [c1, c2] =>
    match b64CharDecode c1, b64CharDecode c2 with
    | some v1, some v2 => some [v1 * 4 + v2 / 16]
    | _, _ => none
  | [c1, c2, c3] =>
    match b64CharDecode c1, b64CharDecode c2, b64CharDecode c3 with
    | some v1, some v2, some v3 =>
      some [v1 * 4 + v2 / 16, v2 % 16 * 16 + v3 / 4]
    | _, _, _ => none
  | c1 :: c2 :: c3 :: c4 :: rest =>
    match b64CharDecode c1, b64CharDecode c2, b64CharDecode c3, b64CharDecode c4,
        b64DecodeGroups rest with
    | some v1, some v2, some v3, some v4, some tail =>
      some ((v1 * 4 + v2 / 16) :: (v2 % 16 * 16 + v3 / 4) ::
        (v3 % 4 * 64 + v4) :: tail)
    | _, _, _, _, _ => none
  | _ => none

/-- `atob` (WHATWG forgiving-base64 decode): strip ASCII whitespace,
strip canonical padding, fail on a remaining length of 1 mod 4, decode
the 6-bit groups. `none` models the thrown `InvalidCharacterError`. -/
def b64DecodeList (s : List Char) : Option (List Nat) :=
  if (atobStripPadding (s.filter (fun c => !(isB64Whitespace c)))).length % 4 = 1
  then none
  else b64DecodeGroups (atobStripPadding (s.filter (fun c => !(isB64Whitespace c))))

/-- The characters `b64EncodeList` emits before its `=` padding — what
forgiving-base64 is left with after stripping that padding. -/
def b64EncodeNoPad : List Nat → List Char
  | [] => []
  | [a] => [b64Char (a / 4), b64Char (a % 4 * 16)]
  | [a, b] => [b64Char (a / 4), b64Char (a % 4 * 16 + b / 16), b64Char (b % 16 * 4)]
  | a :: b :: c :: rest =>
    b64Char (a / 4) :: b64Char (a % 4 * 16 + b / 16) ::
      b64Char (b % 16 * 4 + c / 64) :: b64Char (c % 64) :: b64EncodeNoPad rest

theorem b64CharDecode_b64Char : ∀ n < 64, b64CharDecode (b64Char n) = some n := by
  decide

theorem b64Char_ne_pad : ∀ n < 64, b64Char n ≠ '=' := by
  decide

theorem b64Char_not_ws : ∀ n < 64, isB64Whitespace (b64Char n) = false := by
  decide

theorem pad_not_ws : isB64Whitespace '=' = false := rfl

/-- The encoder never emits whitespace, so the stripping filter of
forgiving-base64 leaves its output unchanged. -/
theorem filter_ws_encode : ∀ l : List Nat, (∀ b ∈ l, b < 256) →
    (b64EncodeList l).filter (fun c => !(isB64Whitespace c)) = b64EncodeList l
  | [] => fun _ => rfl
  | [a] => fun h => by
    have ha : a < 256 := h a (by simp)
    have w1 := b64Char_not_ws (a / 4) (by omega)
    have w2 := b64Char_not_ws (a % 4 * 16) (by omega)
    simp [b64EncodeList, List.filter_cons, w1, w2, pad_not_ws]
  | [a, b] => fun h => by
    have ha : a < 256 := h a (by simp)
    have hb : b < 256 := h b (by simp)
    have w1 := b64Char_not_ws (a / 4) (by omega)
    have w2 := b64Char_not_ws (a % 4 * 16 + b / 16) (by omega)
    have w3 := b64Char_not_ws (b % 16 * 4) (by omega)
    simp [b64EncodeList, List.filter_cons, w1, w2, w3, pad_not_ws]
  | a :: b :: c :: rest => fun h => by
    have ha : a < 256 := h a (by simp)
    have hb : b < 256 := h b (by simp)
    have hc : c < 256 := h c (by simp)
    have ih := filter_ws_encode rest (fun x hx => h x (by simp [hx]))
    have w1 := b64Char_not_ws (a / 4) (by omega)
    have w2 := b64Char_not_ws (a % 4 * 16 + b / 16) (by omega)
    have w3 := b64Char_not_ws (b % 16 * 4 + c / 64) (by omega)
    have w4 := b64Char_not_ws (c % 64) (by omega)
    show List.filter (fun c => !(isB64Whitespace c))
        (b64Char (a / 4) :: b64Char (a % 4 * 16 + b / 16) ::
          b64Char (b % 16 * 4 + c / 64) :: b64Char (c % 64) ::
          b64EncodeList rest) =
      b64Char (a / 4) :: b64Char (a % 4 * 16 + b / 16) ::
        b64Char (b % 16 * 4 + c / 64) :: b64Char (c % 64) :: b64EncodeList rest
    simp [List.filter_cons, w1, w2, w3, w4, ih]

/-- The encoder's output length is always a multiple of four. -/
theorem length_encode_mod4 : ∀ l : List Nat, (b64EncodeList l).length % 4 = 0
  | [] => rfl
  | [_] => by
    simp only [b64EncodeList, List.length_cons, List.length_nil]
  | [_, _] => by
    simp only [b64EncodeList, List.length_cons, List.length_nil]
  | _ :: _ :: _ :: rest => by
    have ih := length_encode_mod4 rest
    simp only [b64EncodeList, List.length_cons]
    omega

theorem encode_cons_ne_nil (x : Nat) (xs : List Nat) : b64EncodeList (x :: xs) ≠ [] := by
  match xs with
  | [] => simp [b64EncodeList]
  | [_] => simp [b64EncodeList]
  | _ :: _ :: _ => simp [b64EncodeList]

/-- Stripping the padding at the very end of a four-character chunk
followed by more (full) chunks strips it inside the tail. -/
theorem stripPadding_cons_chunk (y1 y2 y3 y4 : Char) (er : List Char)
    (hlen : er.length % 4 = 0) (hne : er ≠ []) :
    atobStripPadding (y1 :: y2 :: y3 :: y4 :: er) =
      y1 :: y2 :: y3 :: y4 :: atobStripPadding er := by
  have hlen4 : 4 ≤ er.length := by
    have : er.length ≠ 0 := fun h0 => hne (List.length_eq_zero.mp h0)
    omega
  have hglast : (y1 :: y2 :: y3 :: y4 :: er).getLast? = er.getLast? :=
    List.getLast?_append_of_ne_nil [y1, y2, y3, y4] hne
  have hdl : (y1 :: y2 :: y3 :: y4 :: er).dropLast =
      y1 :: y2 :: y3 :: y4 :: er.dropLast :=
    List.dropLast_append_of_ne_nil [y1, y2, y3, y4] hne
  have hdlne : er.dropLast ≠ [] := by
    intro h0
    have := congrArg List.length h0
    rw [List.length_dropLast] at this
    simp at this
    omega
  have hglast2 : (y1 :: y2 :: y3 :: y4 :: er.dropLast).getLast? =
      er.dropLast.getLast? :=
    List.getLast?_append_of_ne_nil [y1, y2, y3, y4] hdlne
  have hdl2 : (y1 :: y2 :: y3 :: y4 :: er.dropLast).dropLast =
      y1 :: y2 :: y3 :: y4 :: er.dropLast.dropLast :=
    List.dropLast_append_of_ne_nil [y1, y2, y3, y4] hdlne
  unfold atobStripPadding
  rw [if_pos (by simp only [List.length_cons]; omega), if_pos hlen,
    hglast, hdl, hglast2, hdl2]
  by_cases h1 : er.getLast? = some '='
  · by_cases h2 : er.dropLast.getLast? = some '=' <;> simp [h1, h2]
  · simp [h1]

/-- Forgiving-base64 padding-stripping turns the encoder's padded output
into its unpadded form. -/
theorem stripPadding_encode : ∀ l : List Nat,
    atobStripPadding (b64EncodeList l) = b64EncodeNoPad l
  | [] => rfl
  | [a] => by
    simp [b64EncodeList, b64EncodeNoPad, atobStripPadding, List.getLast?,
      List.dropLast]
  | [a, b] => by
    have hne := b64Char_ne_pad (b % 16 * 4) (by omega)
    simp [b64EncodeList, b64EncodeNoPad, atobStripPadding, List.getLast?,
      List.dropLast, hne]
  | a :: b :: c :: rest => by
    have ih := stripPadding_encode rest
    match rest with
    | [] =>
      have hne := b64Char_ne_pad (c % 64) (by omega)
      simp [b64EncodeList, b64EncodeNoPad, atobStripPadding, List.getLast?,
        List.dropLast, hne]
    | d :: rest2 =>
      show atobStripPadding
          (b64Char (a / 4) :: b64Char (a % 4 * 16 + b / 16) ::
            b64Char (b % 16 * 4 + c / 64) :: b64Char (c % 64) ::
            b64EncodeList (d :: rest2)) = b64EncodeNoPad (a :: b :: c :: d :: rest2)
      rw [stripPadding_cons_chunk _ _ _ _ _ (length_encode_mod4 (d :: rest2))
        (encode_cons_ne_nil d rest2), ih]
      rfl

/-- The unpadded encoder output never has length 1 mod 4. -/
theorem length_nopad_mod4 : ∀ l : List Nat, (b64EncodeNoPad l).length % 4 ≠ 1
  | [] => by simp [b64EncodeNoPad]
  | [_] => by simp [b64EncodeNoPad]
  | [_, _] => by simp [b64EncodeNoPad]
  | _ :: _ :: _ :: rest => by
    have ih := length_nopad_mod4 rest
    simp only [b64EncodeNoPad, List.length_cons]
    omega

/-- Group decoding inverts the unpadded encoder. -/
theorem groups_roundtrip : ∀ l : List Nat, (∀ b ∈ l, b < 256) →
    b64DecodeGroups (b64EncodeNoPad l) = some l
  | [] => fun _ => rfl
  | [a] => fun h => by
    have ha : a < 256 := h a (by simp)
    have e1 := b64CharDecode_b64Char (a / 4) (by omega)
    have e2 := b64CharDecode_b64Char (a % 4 * 16) (by omega)
    simp only [b64EncodeNoPad, b64DecodeGroups, e1, e2]
    simp only [Option.some.injEq, List.cons.injEq, and_true]
    omega
  | [a, b] => fun h => by
    have ha : a < 256 := h a (by simp)
    have hb : b < 256 := h b (by simp)
    have e1 := b64CharDecode_b64Char (a / 4) (by omega)
    have e2 := b64CharDecode_b64Char (a % 4 * 16 + b / 16) (by omega)
    have e3 := b64CharDecode_b64Char (b % 16 * 4) (by omega)
    simp only [b64EncodeNoPad, b64DecodeGroups, e1, e2, e3]
    simp only [Option.some.injEq, List.cons.injEq, and_true]
    omega
  | a :: b :: c :: rest => fun h => by
    have ha : a < 256 := h a (by simp)
    have hb : b < 256 := h b (by simp)
    have hc : c < 256 := h c (by simp)
    have ih := groups_roundtrip rest (fun x hx => h x (by simp [hx]))
    have e1 := b64CharDecode_b64Char (a / 4) (by omega)
    have e2 := b64CharDecode_b64Char (a % 4 * 16 + b / 16) (by omega)
    have e3 := b64CharDecode_b64Char (b % 16 * 4 + c / 64) (by omega)
    have e4 := b64CharDecode_b64Char (c % 64) (by omega)
    show b64DecodeGroups
        (b64Char (a / 4) :: b64Char (a % 4 * 16 + b / 16) ::
          b64Char (b % 16 * 4 + c / 64) :: b64Char (c % 64) ::
          b64EncodeNoPad rest) = some (a :: b :: c :: rest)
    simp only [b64DecodeGroups, e1, e2, e3, e4, ih]
    have hx : a / 4 * 4 + (a % 4 * 16 + b / 16) / 16 = a := by omega
    have hy : (a % 4 * 16 + b / 16) % 16 * 16 + (b % 16 * 4 + c / 64) / 4 = b := by
      omega
    have hz : (b % 16 * 4 + c / 64) % 4 * 64 + c % 64 = c := by omega
    rw [hx, hy, hz]

/-- Decoding (forgiving-base64, as `atob`) inverts encoding (`btoa`) on
every byte list. -/
theorem b64_roundtrip (l : List Nat) (h : ∀ b ∈ l, b < 256) :
    b64DecodeList (b64EncodeList l) = some l := by
  unfold b64DecodeList
  rw [filter_ws_encode l h, stripPadding_encode l,
    if_neg (length_nopad_mod4 l)]
  exact groups_roundtrip l h

/-! ## EncryptionService (encryption_service.ts, part_008:1-98)

The Web-Crypto primitives (`PBKDF2` key derivation, `AES-GCM`
encrypt/decrypt) and the text codecs (`TextEncoder`/`TextDecoder`) are
external library calls, modelled as explicit deterministic parameters.
Password prompts are modelled by a stream `Nat → String` giving the
password entered at the n-th prompt of `decryptMnemonic`, and by an
explicit password argument for the single prompt of `encryptMnemonic`;
the random salt and IV of `encryptMnemonic` are likewise arguments. -/

/-- External cryptographic collaborators of `EncryptionService`. Bytes are
`Nat`s below 256. `pbkdf2Key password salt` models
`deriveKeyFromPassword` (PBKDF2, 100 000 iterations, SHA-256, yielding an
AES-GCM-256 key); `aesGcmSeal`/`aesGcmOpen` model
`crypto.subtle.encrypt`/`decrypt` with `{ name: 'AES-GCM', iv }`, `open`
returning `none` on authentication failure. -/
structure CryptoDeps where
  pbkdf2Key : String → List Nat → List Nat
  aesGcmSeal : List Nat → List Nat → List Nat → List Nat
  aesGcmOpen : List Nat → List Nat → List Nat → Option (List Nat)
  utf8Encode : String → List Nat
  utf8Decode : List Nat → String

/-- How `decryptMnemonic` can fail: `atob` throwing on malformed base64,
or `throw new Error('Maximum decryption attempts reached.')`. -/
inductive DecryptError
  | invalidBase64
  | maxAttemptsExceeded
deriving DecidableEq

/-- `EncryptionService.encryptMnemonic(mnemonic)` with the prompted
password and the freshly generated 16-byte salt and 12-byte IV passed
explicitly: derive the key, seal the UTF-8 bytes, and base64-encode
`salt ‖ iv ‖ ciphertext`. -/
def encryptMnemonic (d : CryptoDeps) (password : String) (salt iv : List Nat)
    (mnemonic : String) : String :=
  let key := d.pbkdf2Key password salt
  let encrypted := d.aesGcmSeal key iv (d.utf8Encode mnemonic)
  String.mk (b64EncodeList (salt ++ iv ++ encrypted))

/-- The `for (let attempt = 1; attempt <= 3; attempt++)` loop of
`decryptMnemonic`: `remaining` attempts left, `attempt` prompts already
consumed. Each attempt re-prompts (`passwords attempt`), re-derives the
key from the blob's salt and tries to open; on success the decoded
plaintext is returned, on failure the loop continues, and exhaustion
throws `Maximum decryption attempts reached.`. -/
def decryptAttempts (d : CryptoDeps) (passwords : Nat → String)
    (salt iv data : List Nat) : Nat → Nat → Except DecryptError String
  | 0, _ => .error .maxAttemptsExceeded
  | remaining + 1, attempt =>
    let key := d.pbkdf2Key (passwords attempt) salt
    match d.aesGcmOpen key iv data with
    | some pt => .ok (d.utf8Decode pt)
    | none => decryptAttempts d passwords salt iv data remaining (attempt + 1)

/-- `EncryptionService.decryptMnemonic(encryptedMnemonic)`: base64-decode
(`atob` throws on failure — there is no length check), slice salt =
bytes[0..16), iv = bytes[16..28), data = bytes[28..) (JavaScript `slice`
clamps, exactly like `take`/`drop`), then run up to 3 attempts. -/
def decryptMnemonic (d : CryptoDeps) (passwords : Nat → String)
    (encryptedMnemonic : String) : Except DecryptError String :=
  match b64DecodeList encryptedMnemonic.data with
  | none => .error .invalidBase64
  | some bytes =>
    decryptAttempts d passwords (bytes.take 16) ((bytes.drop 16).take 12)
      (bytes.drop 28) 3 0

/-- A concrete, executable instantiation of the cryptographic
collaborators, used to evaluate the theorems on explicit inputs: the
"key" is the password bytes plus the salt, sealing appends a 16-byte tag
determined by key and IV, opening checks and strips it (so wrong
passwords fail authentication, as with AES-GCM), and text is coded by
Unicode code points. -/
def testCrypto : CryptoDeps where
  pbkdf2Key := fun password salt => password.data.map Char.toNat ++ salt
  aesGcmSeal := fun key iv pt => pt ++ (key ++ iv ++ List.replicate 16 7).take 16
  aesGcmOpen := fun key iv ct =>
    if ct.length < 16 then none
    else if ct.drop (ct.length - 16) = (key ++ iv ++ List.replicate 16 7).take 16 then
      some (ct.take (ct.length - 16))
    else none
  utf8Encode := fun s => s.data.map Char.toNat
  utf8Decode := fun l => String.mk (l.map Char.ofNat)

/-! ## Helper lemmas about the attempt loop -/

theorem decryptAttempts_fail_step (d : CryptoDeps) (passwords : Nat → String)
    (salt iv data : List Nat) (r a : Nat)
    (h : d.aesGcmOpen (d.pbkdf2Key (passwords a) salt) iv data = none) :
    decryptAttempts d passwords salt iv data (r + 1) a =
      decryptAttempts d passwords salt iv data r (a + 1) := by
  simp [decryptAttempts, h]

theorem decryptAttempts_ok_step (d : CryptoDeps) (passwords : Nat → String)
    (salt iv data : List Nat) (r a : Nat) (pt : List Nat)
    (h : d.aesGcmOpen (d.pbkdf2Key (passwords a) salt) iv data = some pt) :
    decryptAttempts d passwords salt iv data (r + 1) a = .ok (d.utf8Decode pt) := by
  simp [decryptAttempts, h]

/-- When every one of the three attempts fails to authenticate,
`decryptMnemonic` ends with `Maximum decryption attempts reached.`. -/
theorem decryptMnemonic_all_fail (d : CryptoDeps) (passwords : Nat → String)
    (blob : String) (bytes : List Nat)
    (hdec : b64DecodeList blob.data = some bytes)
    (hfail : ∀ k < 3, d.aesGcmOpen (d.pbkdf2Key (passwords k) (bytes.take 16))
        ((bytes.drop 16).take 12) (bytes.drop 28) = none) :
    decryptMnemonic d passwords blob = .error .maxAttemptsExceeded := by
  simp only [decryptMnemonic, hdec]
  calc decryptAttempts d passwords (bytes.take 16) ((bytes.drop 16).take 12)
        (bytes.drop 28) 3 0
      = decryptAttempts d passwords (bytes.take 16) ((bytes.drop 16).take 12)
        (bytes.drop 28) 2 1 :=
        decryptAttempts_fail_step d passwords _ _ _ 2 0 (hfail 0 (by omega))
    _ = decryptAttempts d passwords (bytes.take 16) ((bytes.drop 16).take 12)
        (bytes.drop 28) 1 2 :=
        decryptAttempts_fail_step d passwords _ _ _ 1 1 (hfail 1 (by omega))
    _ = decryptAttempts d passwords (bytes.take 16) ((bytes.drop 16).take 12)
        (bytes.drop 28) 0 3 :=
        decryptAttempts_fail_step d passwords _ _ _ 0 2 (hfail 2 (by omega))
    _ = .error .maxAttemptsExceeded := rfl

/-- When the `k`-th attempt (0-based, `k < 3`) authenticates after the
earlier ones failed, its decoded plaintext is returned. -/
theorem decryptMnemonic_attempt_ok (d : CryptoDeps) (passwords : Nat → String)
    (blob : String) (bytes : List Nat) (k : Nat) (pt : List Nat)
    (hdec : b64DecodeList blob.data = some bytes)
    (hk : k < 3)
    (hprev : ∀ j < k, d.aesGcmOpen (d.pbkdf2Key (passwords j) (bytes.take 16))
        ((bytes.drop 16).take 12) (bytes.drop 28) = none)
    (hok : d.aesGcmOpen (d.pbkdf2Key (passwords k) (bytes.take 16))
        ((bytes.drop 16).take 12) (bytes.drop 28) = some pt) :
    decryptMnemonic d passwords blob = .ok (d.utf8Decode pt) := by
  simp only [decryptMnemonic, hdec]
  match k, hk with
  | 0, _ =>
    exact decryptAttempts_ok_step d passwords _ _ _ 2 0 pt hok
  | 1, _ =>
    calc decryptAttempts d passwords (bytes.take 16) ((bytes.drop 16).take 12)
          (bytes.drop 28) 3 0
        = decryptAttempts d passwords (bytes.take 16) ((bytes.drop 16).take 12)
          (bytes.drop 28) 2 1 :=
          decryptAttempts_fail_step d passwords _ _ _ 2 0 (hprev 0 (by omega))
      _ = .ok (d.utf8Decode pt) :=
          decryptAttempts_ok_step d passwords _ _ _ 1 1 pt hok
  | 2, _ =>
    calc decryptAttempts d passwords (bytes.take 16) ((bytes.drop 16).take 12)
          (bytes.drop 28) 3 0
        = decryptAttempts d passwords (bytes.take 16) ((bytes.drop 16).take 12)
          (bytes.drop 28) 2 1 :=
          decryptAttempts_fail_step d passwords _ _ _ 2 0 (hprev 0 (by omega))
      _ = decryptAttempts d passwords (bytes.take 16) ((bytes.drop 16).take 12)
          (bytes.drop 28) 1 2 :=
          decryptAttempts_fail_step d passwords _ _ _ 1 1 (hprev 1 (by omega))
      _ = .ok (d.utf8Decode pt) :=
          decryptAttempts_ok_step d passwords _ _ _ 0 2 pt hok

/-! ## Theorems: encryption claims -/

/-- C1. Encryption round-trip: for every non-empty mnemonic `M` and
password `P`, decrypting `encryptMnemonic M` while entering `P` at the
prompt returns exactly `M`, for any cryptographic collaborators that
satisfy the AEAD and text-codec round-trip properties at these inputs
(PBKDF2 is deterministic, so the same password and salt re-derive the
same key). -/
theorem encrypt_decrypt_roundtrip (d : CryptoDeps) (passwords : Nat → String)
    (P : String) (salt iv : List Nat) (M : String)
    (hM : M ≠ "")
    (hsalt : salt.length = 16) (hsaltB : ∀ b ∈ salt, b < 256)
    (hiv : iv.length = 12) (hivB : ∀ b ∈ iv, b < 256)
    (hctB : ∀ b ∈ d.aesGcmSeal (d.pbkdf2Key P salt) iv (d.utf8Encode M), b < 256)
    (hopen : d.aesGcmOpen (d.pbkdf2Key P salt) iv
        (d.aesGcmSeal (d.pbkdf2Key P salt) iv (d.utf8Encode M)) =
        some (d.utf8Encode M))
    (hutf : d.utf8Decode (d.utf8Encode M) = M)
    (hpw : passwords 0 = P) :
    decryptMnemonic d passwords (encryptMnemonic d P salt iv M) = .ok M := by
  have hbytes : ∀ b ∈ salt ++ iv ++ d.aesGcmSeal (d.pbkdf2Key P salt) iv
      (d.utf8Encode M), b < 256 := by
    intro b hb
    simp only [List.append_assoc, List.mem_append] at hb
    rcases hb with h | h | h
    · exact hsaltB b h
    · exact hivB b h
    · exact hctB b h
  have hdec : b64DecodeList (encryptMnemonic d P salt iv M).data =
      some (salt ++ iv ++ d.aesGcmSeal (d.pbkdf2Key P salt) iv (d.utf8Encode M)) :=
    b64_roundtrip _ hbytes
  have htake : (salt ++ iv ++ d.aesGcmSeal (d.pbkdf2Key P salt) iv
      (d.utf8Encode M)).take 16 = salt := by
    rw [List.append_assoc]
    exact List.take_left' hsalt
  have hdrop16 : (salt ++ iv ++ d.aesGcmSeal (d.pbkdf2Key P salt) iv
      (d.utf8Encode M)).drop 16 =
      iv ++ d.aesGcmSeal (d.pbkdf2Key P salt) iv (d.utf8Encode M) := by
    rw [List.append_assoc]
    exact List.drop_left' hsalt
  have htake12 : ((salt ++ iv ++ d.aesGcmSeal (d.pbkdf2Key P salt) iv
      (d.utf8Encode M)).drop 16).take 12 = iv := by
    rw [hdrop16]
    exact List.take_left' hiv
  have hdrop28 : (salt ++ iv ++ d.aesGcmSeal (d.pbkdf2Key P salt) iv
      (d.utf8Encode M)).drop 28 =
      d.aesGcmSeal (d.pbkdf2Key P salt) iv (d.utf8Encode M) := by
    have h28 : (28 : Nat) = 16 + 12 := by norm_num
    rw [h28, ← List.drop_drop, hdrop16]
    exact List.drop_left' hiv
  simp only [decryptMnemonic, hdec, htake, htake12, hdrop28]
  have := decryptAttempts_ok_step d passwords salt iv
    (d.aesGcmSeal (d.pbkdf2Key P salt) iv (d.utf8Encode M)) 2 0
    (d.utf8Encode M) (by rw [hpw]; exact hopen)
  rw [this, hutf]

/-- C1 witness: with the executable collaborators, the concrete salt
`0..15`, IV `0..11`, password `pw` and mnemonic `ab` round-trip. -/
theorem encrypt_decrypt_roundtrip_witness :
    decryptMnemonic testCrypto (fun _ => "pw")
        (encryptMnemonic testCrypto "pw" (List.range 16) (List.range 12) "ab") =
      .ok "ab" :=
  encrypt_decrypt_roundtrip testCrypto (fun _ => "pw") "pw"
    (List.range 16) (List.range 12) "ab"
    (by decide) (by decide) (by decide) (by decide) (by decide) (by decide)
    (by decide) (by decide) rfl

/-- C4. Decryption retry bound: on a blob whose base64 decodes, if the
AEAD open fails on every prompted password then `decryptMnemonic` makes
exactly 3 attempts (prompting once per attempt) and fails with
`Maximum decryption attempts reached.`; if the `k`-th attempt (`k < 3`)
succeeds after the earlier ones failed, its plaintext is decoded and
returned. -/
theorem decrypt_retry_bound (d : CryptoDeps) (passwords : Nat → String)
    (blob : String) (bytes : List Nat)
    (hdec : b64DecodeList blob.data = some bytes) :
    ((∀ k < 3, d.aesGcmOpen (d.pbkdf2Key (passwords k) (bytes.take 16))
        ((bytes.drop 16).take 12) (bytes.drop 28) = none) →
      decryptMnemonic d passwords blob = .error .maxAttemptsExceeded)
    ∧ (∀ k pt, k < 3 →
        (∀ j < k, d.aesGcmOpen (d.pbkdf2Key (passwords j) (bytes.take 16))
          ((bytes.drop 16).take 12) (bytes.drop 28) = none) →
        d.aesGcmOpen (d.pbkdf2Key (passwords k) (bytes.take 16))
          ((bytes.drop 16).take 12) (bytes.drop 28) = some pt →
        decryptMnemonic d passwords blob = .ok (d.utf8Decode pt)) :=
  ⟨fun hfail => decryptMnemonic_all_fail d passwords blob bytes hdec hfail,
   fun k pt hk hprev hok =>
    decryptMnemonic_attempt_ok d passwords blob bytes k pt hdec hk hprev hok⟩

/-- C4 witness: the 3-byte blob `AAAA` ([0,0,0]) can never authenticate
under the executable collaborators, and the call ends with
`maxAttemptsExceeded`. -/
theorem decrypt_retry_bound_witness :
    decryptMnemonic testCrypto (fun _ => "pw") "AAAA" =
      .error .maxAttemptsExceeded :=
  (decrypt_retry_bound testCrypto (fun _ => "pw") "AAAA" [0, 0, 0]
    (by decide)).1 (by decide)

/-- C5 counterexample: the claim says a blob that decodes to fewer than
28 bytes is rejected with a format error before any decryption attempt;
but `AA==` decodes to the single byte `[0]` and `decryptMnemonic` runs
all three (failing) attempts and ends with `maxAttemptsExceeded` — not
with the pre-attempt base64 failure. -/
theorem decrypt_short_blob_not_rejected :
    b64DecodeList (String.data "AA==") = some [0]
    ∧ decryptMnemonic testCrypto (fun _ => "pw") "AA==" =
        .error .maxAttemptsExceeded
    ∧ decryptMnemonic testCrypto (fun _ => "pw") "AA==" ≠
        .error .invalidBase64 := by
  have e : decryptMnemonic testCrypto (fun _ => "pw") "AA==" =
      .error .maxAttemptsExceeded := rfl
  refine ⟨by decide, e, ?_⟩
  intro h
  rw [e] at h
  cases Except.error.inj h

/-- C5 amended: when base64 decoding fails, `decryptMnemonic` throws
(the native `atob` error) before any password prompt or decryption
attempt; there is no minimum-length check — a decoded blob shorter than
28 bytes proceeds to the attempt loop with truncated salt/IV/data slices
and, when every attempt fails to authenticate, fails with
`Maximum decryption attempts reached.`. -/
theorem decrypt_malformed_blob (d : CryptoDeps) (passwords : Nat → String)
    (blob : String) :
    (b64DecodeList blob.data = none →
      decryptMnemonic d passwords blob = .error .invalidBase64)
    ∧ (∀ bytes, b64DecodeList blob.data = some bytes → bytes.length < 28 →
        (∀ k < 3, d.aesGcmOpen (d.pbkdf2Key (passwords k) (bytes.take 16))
          ((bytes.drop 16).take 12) (bytes.drop 28) = none) →
        decryptMnemonic d passwords blob = .error .maxAttemptsExceeded) := by
  constructor
  · intro h
    simp only [decryptMnemonic, h]
  · intro bytes hdec _ hfail
    exact decryptMnemonic_all_fail d passwords blob bytes hdec hfail

/-- C5 amended, witness: `%%` is not base64 and fails immediately; the
unpadded `AAA`, which forgiving base64 accepts as the two bytes `[0, 0]`,
reaches the attempt loop and exhausts it. -/
theorem decrypt_malformed_blob_witness :
    decryptMnemonic testCrypto (fun _ => "pw") "%%" = .error .invalidBase64
    ∧ decryptMnemonic testCrypto (fun _ => "pw") "AAA" =
        .error .maxAttemptsExceeded :=
  ⟨(decrypt_malformed_blob testCrypto (fun _ => "pw") "%%").1 (by decide),
   (decrypt_malformed_blob testCrypto (fun _ => "pw") "AAA").2 [0, 0]
     (by decide) (by decide) (by decide)⟩

/-! ## Key derivation (wallet.ts, part_008:257-302, 342-350)

`bip39.validateMnemonic`, `bip39.mnemonicToSeed` and the BIP-32
`fromSeed(..).derivePath(path).privateKey` pipeline are external library
calls, modelled as explicit deterministic parameters; `encode` from
`stablelib/hex` is modelled executably. -/

/-- `stablelib/hex` digit (lowercase). -/
def hexDigit (n : Nat) : Char :=
  if n < 10 then Char.ofNat (48 + n) else Char.ofNat (87 + n)

/-- The character list of `stablelib/hex` `encode`: two lowercase hex
digits per byte. -/
def hexChars : List Nat → List Char
  | [] => []
  | b :: t => hexDigit (b / 16) :: hexDigit (b % 16) :: hexChars t

/-- `stablelib/hex` `encode`. -/
def hexEncode (bytes : List Nat) : String :=
  String.mk (hexChars bytes)

theorem hexDigit_inj : ∀ a < 16, ∀ b < 16, hexDigit a = hexDigit b → a = b := by
  decide

theorem hexChars_inj : ∀ l1 l2 : List Nat, (∀ b ∈ l1, b < 256) →
    (∀ b ∈ l2, b < 256) → hexChars l1 = hexChars l2 → l1 = l2
  | [], [] => fun _ _ _ => rfl
  | [], _ :: _ => fun _ _ h => by exact absurd h (by simp [hexChars])
  | _ :: _, [] => fun _ _ h => by exact absurd h (by simp [hexChars])
  | a :: t1, b :: t2 => fun h1 h2 h => by
    have ha : a < 256 := h1 a (by simp)
    have hb : b < 256 := h2 b (by simp)
    simp only [hexChars, List.cons.injEq] at h
    obtain ⟨e1, e2, etail⟩ := h
    have hab : a = b := by
      have d1 := hexDigit_inj (a / 16) (by omega) (b / 16) (by omega) e1
      have d2 := hexDigit_inj (a % 16) (by omega) (b % 16) (by omega) e2
      omega
    have := hexChars_inj t1 t2 (fun x hx => h1 x (by simp [hx]))
      (fun x hx => h2 x (by simp [hx])) etail
    rw [hab, this]

theorem hexEncode_inj (l1 l2 : List Nat) (h1 : ∀ b ∈ l1, b < 256)
    (h2 : ∀ b ∈ l2, b < 256) (h : hexEncode l1 = hexEncode l2) : l1 = l2 :=
  hexChars_inj l1 l2 h1 h2 (congrArg String.data h)

/-- External BIP-39/BIP-32 collaborators: mnemonic checksum validation,
mnemonic-to-seed (PBKDF2-HMAC-SHA512), and
`bip32.fromSeed(seed).derivePath(path).privateKey` (which is `undefined`,
i.e. `none`, when the node has no private part). -/
structure Bip32Deps where
  validateMnemonic : String → Bool
  mnemonicToSeed : String → List Nat
  derivePathPriv : List Nat → String → Option (List Nat)

/-- Failures of `Wallet.derivePrivateKey`. -/
inductive DeriveError
  | invalidMnemonic
  | unableToDerive
deriving DecidableEq

/-- `Wallet.derivePrivateKey(derivationPath)` for a resolved active
mnemonic: validate, seed, derive, hex-encode with `0x` prefix. -/
def derivePrivateKey (d : Bip32Deps) (mnemonic derivationPath : String) :
    Except DeriveError String :=
  if ¬ d.validateMnemonic mnemonic then .error .invalidMnemonic
  else
    match d.derivePathPriv (d.mnemonicToSeed mnemonic) derivationPath with
    | none => .error .unableToDerive
    | some pk => .ok ("0x" ++ hexEncode pk)

/-- The eSpace derivation path: `m/44'/60'/0'/0/{index}`. -/
def espacePath (index : Nat) : String := "m/44'/60'/0'/0/" ++ toString index

/-- The Core derivation path: `m/44'/503'/0'/0/{index}`. -/
def corePath (index : Nat) : String := "m/44'/503'/0'/0/" ++ toString index

/-- `Wallet.espacePrivateKey(index)`. -/
def espacePrivateKey (d : Bip32Deps) (mnemonic : String) (index : Nat) :
    Except DeriveError String :=
  derivePrivateKey d mnemonic (espacePath index)

/-- `Wallet.corePrivateKey(index)`. -/
def corePrivateKey (d : Bip32Deps) (mnemonic : String) (index : Nat) :
    Except DeriveError String :=
  derivePrivateKey d mnemonic (corePath index)

theorem corePath_ne_espacePath (i : Nat) : corePath i ≠ espacePath i := by
  intro h
  have hlen := congrArg String.length h
  rw [corePath, espacePath, String.length_append, String.length_append] at hlen
  have e1 : ("m/44'/503'/0'/0/" : String).length = 16 := rfl
  have e2 : ("m/44'/60'/0'/0/" : String).length = 15 := rfl
  rw [e1, e2] at hlen
  omega

/-- External `cive/accounts` collaborator:
`privateKeyToAccount(privateKey, { networkId })` rendered as the base32
address string. -/
structure CoreAccountDeps where
  privateKeyToAccount : String → Int → String

/-- `Wallet.coreAddress(index)`: derives the Core private key and encodes
it with the hard-coded `{ networkId: 1029 }`. -/
def coreAddress (d : Bip32Deps) (acc : CoreAccountDeps) (mnemonic : String)
    (i : Nat) : Except DeriveError String :=
  match corePrivateKey d mnemonic i with
  | .error e => .error e
  | .ok pk => .ok (acc.privateKeyToAccount pk 1029)

/-- The loaded configuration (config file): the chain id consumed by the
node and RPC clients. -/
structure Config where
  chainId : Int
deriving DecidableEq

/-- A `coreAddress` computation in a process whose loaded configuration is
`cfg`: `Wallet.coreAddress` never reads the configuration, so the
parameter is unused — exactly as in the source, where the `Wallet` class
holds no reference to the config object. -/
def coreAddressUnderConfig (cfg : Config) (d : Bip32Deps)
    (acc : CoreAccountDeps) (mnemonic : String) (i : Nat) :
    Except DeriveError String :=
  coreAddress d acc mnemonic i

/-- Executable instantiation of the BIP-32 collaborators for concrete
evaluation: the seed is the code points of the mnemonic, and derivation
tags the seed with 1 on the Core path for index 0 and with 2 elsewhere
(so the two canonical paths genuinely derive different keys). -/
def testBip32 : Bip32Deps where
  validateMnemonic := fun _ => true
  mnemonicToSeed := fun m => m.data.map Char.toNat
  derivePathPriv := fun seed path =>
    if path = corePath 0 then some (1 :: seed.map (· % 256))
    else some (2 :: seed.map (· % 256))

/-- Executable instantiation of `cive/accounts`. -/
def testAccount : CoreAccountDeps where
  privateKeyToAccount := fun pk networkId => "net" ++ toString networkId ++ ":" ++ pk

/-! ## Theorems: derivation claims -/

/-- C7. Derivation path mapping and divergence: for a valid mnemonic,
`corePrivateKey i` derives at `m/44'/503'/0'/0/{i}` and
`espacePrivateKey i` at `m/44'/60'/0'/0/{i}`, both from the same BIP-39
seed `mnemonicToSeed m`; the two paths are distinct strings, and —
assuming the external BIP-32 derivation distinguishes these two paths on
this seed, as secp256k1/HMAC-SHA512 does — the two derived private keys
differ. -/
theorem derivation_divergence (d : Bip32Deps) (m : String) (i : Nat)
    (hv : d.validateMnemonic m = true)
    (hneq : d.derivePathPriv (d.mnemonicToSeed m) (corePath i) ≠
        d.derivePathPriv (d.mnemonicToSeed m) (espacePath i))
    (hbc : ∀ pk, d.derivePathPriv (d.mnemonicToSeed m) (corePath i) = some pk →
        ∀ b ∈ pk, b < 256)
    (hbe : ∀ pk, d.derivePathPriv (d.mnemonicToSeed m) (espacePath i) = some pk →
        ∀ b ∈ pk, b < 256) :
    corePrivateKey d m i =
      (match d.derivePathPriv (d.mnemonicToSeed m) (corePath i) with
        | none => .error .unableToDerive
        | some pk => .ok ("0x" ++ hexEncode pk))
    ∧ espacePrivateKey d m i =
      (match d.derivePathPriv (d.mnemonicToSeed m) (espacePath i) with
        | none => .error .unableToDerive
        | some pk => .ok ("0x" ++ hexEncode pk))
    ∧ corePath i ≠ espacePath i
    ∧ corePrivateKey d m i ≠ espacePrivateKey d m i := by
  have hcore : corePrivateKey d m i =
      (match d.derivePathPriv (d.mnemonicToSeed m) (corePath i) with
        | none => .error .unableToDerive
        | some pk => .ok ("0x" ++ hexEncode pk)) := by
    simp [corePrivateKey, derivePrivateKey, hv]
  have hesp : espacePrivateKey d m i =
      (match d.derivePathPriv (d.mnemonicToSeed m) (espacePath i) with
        | none => .error .unableToDerive
        | some pk => .ok ("0x" ++ hexEncode pk)) := by
    simp [espacePrivateKey, derivePrivateKey, hv]
  refine ⟨hcore, hesp, corePath_ne_espacePath i, ?_⟩
  rw [hcore, hesp]
  cases hc : d.derivePathPriv (d.mnemonicToSeed m) (corePath i) with
  | none =>
    cases he : d.derivePathPriv (d.mnemonicToSeed m) (espacePath i) with
    | none => exact absurd (hc.trans he.symm) hneq
    | some pk2 => simp
  | some pk1 =>
    cases he : d.derivePathPriv (d.mnemonicToSeed m) (espacePath i) with
    | none => simp
    | some pk2 =>
      simp only [Except.ok.injEq, ne_eq]
      intro hek
      have hdata := congrArg String.data hek
      rw [String.data_append, String.data_append] at hdata
      have hhex : hexEncode pk1 = hexEncode pk2 :=
        congrArg String.mk (List.append_cancel_left hdata)
      have : pk1 = pk2 :=
        hexEncode_inj pk1 pk2 (hbc pk1 hc) (hbe pk2 he) hhex
      rw [hc, he, this] at hneq
      exact hneq rfl

/-- C7 witness: with the executable BIP-32 collaborators and the mnemonic
`abc` at index 0, the Core and eSpace derived keys differ. -/
theorem derivation_divergence_witness :
    corePrivateKey testBip32 "abc" 0 ≠ espacePrivateKey testBip32 "abc" 0 :=
  (derivation_divergence testBip32 "abc" 0 rfl (by decide)
    (by
      intro pk h
      have e : testBip32.derivePathPriv (testBip32.mnemonicToSeed "abc")
          (corePath 0) = some [1, 97, 98, 99] := by decide
      rw [e] at h
      injection h with h
      subst h
      decide)
    (by
      intro pk h
      have e : testBip32.derivePathPriv (testBip32.mnemonicToSeed "abc")
          (espacePath 0) = some [2, 97, 98, 99] := by decide
      rw [e] at h
      injection h with h
      subst h
      decide)).2.2.2

/-- C10. The Core address network tag is the constant 1029: a
`coreAddress` run is independent of the loaded configuration's chain id,
and a successful derivation is encoded via
`privateKeyToAccount(pk, { networkId: 1029 })`. -/
theorem coreAddress_networkId_1029 (d : Bip32Deps) (acc : CoreAccountDeps)
    (m : String) (i : Nat) (cfg cfg' : Config) :
    coreAddressUnderConfig cfg d acc m i = coreAddressUnderConfig cfg' d acc m i
    ∧ (∀ pk, corePrivateKey d m i = .ok pk →
        coreAddressUnderConfig cfg d acc m i =
          .ok (acc.privateKeyToAccount pk 1029)) := by
  refine ⟨rfl, ?_⟩
  intro pk h
  simp [coreAddressUnderConfig, coreAddress, h]

/-- C10 witness: two runs with chain ids 2029 and 1 produce the same
address, tagged with 1029. -/
theorem coreAddress_networkId_1029_witness :
    coreAddressUnderConfig { chainId := 2029 } testBip32 testAccount "abc" 0 =
      coreAddressUnderConfig { chainId := 1 } testBip32 testAccount "abc" 0
    ∧ coreAddressUnderConfig { chainId := 2029 } testBip32 testAccount "abc" 0 =
      .ok (testAccount.privateKeyToAccount "0x01616263" 1029) :=
  ⟨(coreAddress_networkId_1029 testBip32 testAccount "abc" 0
      { chainId := 2029 } { chainId := 1 }).1,
   (coreAddress_networkId_1029 testBip32 testAccount "abc" 0
      { chainId := 2029 } { chainId := 1 }).2 "0x01616263" rfl⟩

/-! ## coreClient faucet (src/src/clients/cive.ts:115-171)

The `cive`/`viem` address predicates, CFX parsing, base32 conversion and
ABI encoding are external library calls, modelled as explicit parameters;
the single outbound `wallet.sendTransaction` call is modelled by
returning the request it would carry. -/

/-- External collaborators of `coreClient`: `isAddress` from `viem`
(eSpace hex format), `isAddress` from `cive` (Core base32 format),
`isNaN(Number(amount))`, `parseCFX`, `hexAddressToBase32` and
`encodeFunctionData`, plus the client's `chain.id` (the configured chain
id). -/
structure CoreClientDeps where
  isEspaceAddress : String → Bool
  isCoreAddress : String → Bool
  isNaNNumber : String → Bool
  parseCFX : String → Int
  hexAddressToBase32 : String → Int → String
  encodeFunctionData : String → List String → String
  networkId : Int

/-- The request passed to the single `wallet.sendTransaction` call:
recipient (the source's `to` field), value in Drip, and the optional
contract-call payload. -/
structure TxRequest where
  toAddress : String
  value : Int
  data : Option String
deriving DecidableEq

/-- Errors thrown by `sendTransaction`/`faucet`; `faucetFailed` is the
re-wrapping `Faucet transaction failed: ...` applied by `faucet`'s
`catch` to anything thrown inside its `try`. -/
inductive ClientError
  | invalidAmount
  | invalidAddress
  | invalidAddressFormat
  | faucetFailed (inner : ClientError)
deriving DecidableEq

/-- `coreClient.sendTransaction(address, amount)`: validate the Core
address and the amount, then issue the native transfer (no call data). -/
def sendTransaction (d : CoreClientDeps) (address amount : String) :
    Except ClientError TxRequest :=
  if ¬ d.isCoreAddress address then .error .invalidAddress
  else if amount = "" ∨ d.isNaNNumber amount then .error .invalidAmount
  else .ok { toAddress := address, value := d.parseCFX amount, data := none }

/-- The predeployed CrossSpaceCall contract address used by `faucet`. -/
def crossSpaceCallAddress : String := "0x0888000000000000000000000000000000000006"

/-- `coreClient.faucet(address, amount)`: validate the amount; then, for
an eSpace (hex) destination, send to the base32 form of the CrossSpaceCall
contract with a `transferEVM(address)` payload; for a Core (base32)
destination, delegate to `sendTransaction`; otherwise throw
`Invalid address format`. Everything thrown inside the `try` is
re-wrapped as `Faucet transaction failed: ...`. -/
def faucet (d : CoreClientDeps) (address amount : String) :
    Except ClientError TxRequest :=
  if amount = "" ∨ d.isNaNNumber amount then .error .invalidAmount
  else
    let inner : Except ClientError TxRequest :=
      if d.isEspaceAddress address then
        .ok { toAddress := d.hexAddressToBase32 crossSpaceCallAddress d.networkId
              value := d.parseCFX amount
              data := some (d.encodeFunctionData "transferEVM" [address]) }
      else if d.isCoreAddress address then
        sendTransaction d address amount
      else .error .invalidAddressFormat
    match inner with
    | .ok tx => .ok tx
    | .error e => .error (.faucetFailed e)

/-- Executable instantiation of the chain-client collaborators. -/
def testClient : CoreClientDeps where
  isEspaceAddress := fun a => a = "0x000102"
  isCoreAddress := fun a => a = "net2029:node"
  isNaNNumber := fun a => a = "oops"
  parseCFX := fun _ => 5
  hexAddressToBase32 := fun hex networkId => "base32:" ++ toString networkId ++ ":" ++ hex
  encodeFunctionData := fun fn args => fn ++ "(" ++ String.join args ++ ")"
  networkId := 2029

/-- C8. Faucet cross-space routing: for an amount passing the faucet's
validity check, a destination in eSpace (hex) format sends the single
transaction to the base32 form of the predeployed CrossSpaceCall contract
`0x0888000000000000000000000000000000000006`, carrying a
`transferEVM(destination)` payload — not a native transfer to the
destination; a destination in Core (base32) format is sent as a native
transfer with no payload; any other destination fails. -/
theorem faucet_cross_space_routing (d : CoreClientDeps) (address amount : String)
    (hamt1 : amount ≠ "") (hamt2 : d.isNaNNumber amount = false) :
    (d.isEspaceAddress address = true →
      faucet d address amount =
        .ok { toAddress := d.hexAddressToBase32 crossSpaceCallAddress d.networkId
              value := d.parseCFX amount
              data := some (d.encodeFunctionData "transferEVM" [address]) })
    ∧ (d.isEspaceAddress address = false → d.isCoreAddress address = true →
      faucet d address amount =
        .ok { toAddress := address, value := d.parseCFX amount, data := none })
    ∧ (d.isEspaceAddress address = false → d.isCoreAddress address = false →
      faucet d address amount = .error (.faucetFailed .invalidAddressFormat)) := by
  refine ⟨?_, ?_, ?_⟩
  · intro hesp
    simp [faucet, hamt1, hamt2, hesp]
  · intro hesp hcore
    simp [faucet, sendTransaction, hamt1, hamt2, hesp, hcore]
  · intro hesp hcore
    simp [faucet, hamt1, hamt2, hesp, hcore]

/-- C8 witness: with the executable collaborators and amount `1`, an
eSpace destination routes through the CrossSpaceCall contract with a
`transferEVM` payload, a Core destination is a plain native transfer, and
a malformed destination fails. -/
theorem faucet_cross_space_routing_witness :
    faucet testClient "0x000102" "1" =
      .ok { toAddress := "base32:2029:0x0888000000000000000000000000000000000006"
            value := 5
            data := some "transferEVM(0x000102)" }
    ∧ faucet testClient "net2029:node" "1" =
      .ok { toAddress := "net2029:node", value := 5, data := none }
    ∧ faucet testClient "bogus" "1" =
      .error (.faucetFailed .invalidAddressFormat) :=
  ⟨(faucet_cross_space_routing testClient "0x000102" "1"
      (by decide) (by decide)).1 rfl,
   (faucet_cross_space_routing testClient "net2029:node" "1"
      (by decide) (by decide)).2.1 rfl rfl,
   (faucet_cross_space_routing testClient "bogus" "1"
      (by decide) (by decide)).2.2 rfl rfl⟩

end DenoCli
